import Mathlib

/-!
Verification of the OAuth redirect-capture listener in
`src/src-tauri/src/lib.rs` (commands `start_oauth_server`,
`stop_oauth_server` and the connection-handling closure inside
`run_oauth_server`), shallowly embedded in Lean.
-/

set_option maxRecDepth 4000

/-- Model of Rust `str::split(c)`: splits at every occurrence of `c`,
keeping empty segments; the empty input gives one empty segment. -/
def splitOnChar (c : Char) : List Char → List (List Char)
  | [] => [[]]
  | x :: xs =>
    if x = c then [] :: splitOnChar c xs
    else
      match splitOnChar c xs with
      | [] => [[x]]
      | g :: gs => (x :: g) :: gs

/-- Split at every character satisfying `p`, keeping empty segments. -/
def splitOnPred (p : Char → Bool) : List Char → List (List Char)
  | [] => [[]]
  | x :: xs =>
    if p x then [] :: splitOnPred p xs
    else
      match splitOnPred p xs with
      | [] => [[x]]
      | g :: gs => (x :: g) :: gs

/-- Model of Rust `str::split_whitespace`: whitespace-separated tokens,
with empty tokens discarded. -/
def whitespaceTokens (l : List Char) : List (List Char) :=
  (splitOnPred (fun c => c.isWhitespace) l).filter (fun g => !g.isEmpty)

/-- Everything after the first occurrence of `c`, or `none` when `c` is
absent.  Models `path.find(c)` followed by slicing `[i + 1 ..]`. -/
def afterChar (c : Char) : List Char → Option (List Char)
  | [] => none
  | x :: xs => if x = c then some xs else afterChar c xs

/-- Drop one trailing carriage return, as Rust `lines()` does after it
has stripped a line feed. -/
def stripCR (l : List Char) : List Char :=
  if l.getLast? = some '\r' then l.dropLast else l

/-- Model of `request.lines().next()`: `none` on the empty string;
otherwise the text before the first line feed, with a carriage return
stripped only when a line feed was present. -/
def firstLine (s : String) : Option (List Char) :=
  match s.data with
  | [] => none
  | x :: xs =>
    if '\n' ∈ x :: xs then
      some (stripCR ((x :: xs).takeWhile (fun c => !(c = '\n'))))
    else some (x :: xs)

/-- UTF-8 encoding of one scalar value, byte values as `Nat`. -/
def charUtf8 (c : Char) : List Nat :=
  let n := c.toNat
  if n < 0x80 then [n]
  else if n < 0x800 then [0xC0 + n / 64, 0x80 + n % 64]
  else if n < 0x10000 then
    [0xE0 + n / 4096, 0x80 + (n / 64) % 64, 0x80 + n % 64]
  else
    [0xF0 + n / 262144, 0x80 + (n / 4096) % 64, 0x80 + (n / 64) % 64,
      0x80 + n % 64]

/-- The UTF-8 bytes of a string, i.e. Rust `str::as_bytes`. -/
def strBytes (s : String) : List Nat :=
  s.data.flatMap charUtf8

/-- Strict UTF-8 decoding of a byte sequence, i.e. Rust
`String::from_utf8`: rejects stray continuation bytes, overlong
encodings, surrogates and out-of-range scalar values. -/
def utf8DecodeBytes : List Nat → Option (List Char)
  | [] => some []
  | b :: rest =>
    if b < 0x80 then
      (utf8DecodeBytes rest).map (fun cs => Char.ofNat b :: cs)
    else if b < 0xC2 then none
    else if b < 0xE0 then
      match rest with
      | b1 :: rest2 =>
        if 0x80 ≤ b1 ∧ b1 < 0xC0 then
          (utf8DecodeBytes rest2).map
            (fun cs => Char.ofNat ((b - 0xC0) * 64 + (b1 - 0x80)) :: cs)
        else none
      | [] => none
    else if b < 0xF0 then
      match rest with
      | b1 :: b2 :: rest2 =>
        if 0x80 ≤ b1 ∧ b1 < 0xC0 ∧ 0x80 ≤ b2 ∧ b2 < 0xC0 then
          let cp := (b - 0xE0) * 4096 + (b1 - 0x80) * 64 + (b2 - 0x80)
          if cp < 0x800 ∨ (0xD800 ≤ cp ∧ cp < 0xE000) then none
          else (utf8DecodeBytes rest2).map (fun cs => Char.ofNat cp :: cs)
        else none
      | _ => none
    else if b < 0xF5 then
      match rest with
      | b1 :: b2 :: b3 :: rest2 =>
        if 0x80 ≤ b1 ∧ b1 < 0xC0 ∧ 0x80 ≤ b2 ∧ b2 < 0xC0 ∧
            0x80 ≤ b3 ∧ b3 < 0xC0 then
          let cp := (b - 0xF0) * 262144 + (b1 - 0x80) * 4096 +
            (b2 - 0x80) * 64 + (b3 - 0x80)
          if cp < 0x10000 ∨ 0x110000 ≤ cp then none
          else (utf8DecodeBytes rest2).map (fun cs => Char.ofNat cp :: cs)
        else none
      | _ => none
    else none

namespace urlencoding

/-- Hex digit value of a byte, as in the `urlencoding` crate. -/
def from_hex_digit (b : Nat) : Option Nat :=
  if 0x30 ≤ b ∧ b ≤ 0x39 then some (b - 0x30)
  else if 0x41 ≤ b ∧ b ≤ 0x46 then some (b - 0x41 + 10)
  else if 0x61 ≤ b ∧ b ≤ 0x66 then some (b - 0x61 + 10)
  else none

/-- Model of `urlencoding::decode_binary`: each `%` followed by two hex
digits becomes the denoted byte; an invalid sequence is passed through
verbatim (when only the second digit is invalid, the `%` and the first
digit are emitted and scanning resumes after that digit). -/
def decode_binary : List Nat → List Nat
  | [] => []
  | 0x25 :: rest =>
    match rest with
    | [] => [0x25]
    | [b1] => [0x25, b1]
    | b1 :: b2 :: rest2 =>
      match from_hex_digit b1, from_hex_digit b2 with
      | some h1, some h2 => (h1 * 16 + h2) :: decode_binary rest2
      | some _, none => 0x25 :: b1 :: decode_binary (b2 :: rest2)
      | none, _ => 0x25 :: decode_binary (b1 :: b2 :: rest2)
  | b :: rest => b :: decode_binary rest

/-- Model of `urlencoding::decode`: percent-decode the bytes of the
input and re-validate as UTF-8; `none` models the `FromUtf8Error`
result. -/
def decode (s : String) : Option String :=
  (utf8DecodeBytes (decode_binary (strBytes s))).map String.mk

end urlencoding

/-- The value actually stored for a query parameter:
`urlencoding::decode(value).unwrap_or_default().to_string()`. -/
def decodeValue (s : String) : String :=
  (urlencoding.decode s).getD ""

/-- Lookup in the model of `HashMap` built by `collect` from an
association list: later insertions overwrite earlier ones, so the last
binding of a key wins. -/
def alGet {α β : Type} [DecidableEq α] : List (α × β) → α → Option β
  | [], _ => none
  | p :: rest, k =>
    match alGet rest k with
    | some v => some v
    | none => if p.1 = k then some p.2 else none

/-- Model of `HashMap::remove` on the association-list representation. -/
def alErase {α β : Type} [DecidableEq α] (l : List (α × β)) (k : α) :
    List (α × β) :=
  l.filter (fun p => decide (¬ p.1 = k))

/-- One `key=value` item of the query string: `pair.split('=')` with the
first two segments taken as key and value (any text after a second `=`
is dropped); items without an `=` are discarded; the value is
percent-decoded, the key is not. -/
def parsePair (pair : List Char) : Option (String × String) :=
  match splitOnChar '=' pair with
  | key :: value :: _ => some (String.mk key, decodeValue (String.mk value))
  | _ => none

/-- The query-string parse from `run_oauth_server`: split on `&` and
keep the items that `parsePair` accepts, in order. -/
def parseQueryPairs (q : List Char) : List (String × String) :=
  (splitOnChar '&' q).filterMap parsePair

/-- The payload published on the `oauth-callback` event. -/
structure Payload where
  provider : String
  code : Option String
  state : Option String
  error : Option String
  error_description : Option String

/-- The fixed response written by the connection handler. -/
def oauthResponse : String :=
  "HTTP/1.1 200 OK\r\n\r\n<html><body><h1>认证完成</h1><p>您可以关闭此窗口</p><script>window.close();</script></body></html>"

/-- The payload built for a callback path with query string `query`
(the part of `path` after the first `?`); the provider is
`path.split('/').nth(2).unwrap_or("unknown")`, computed on the whole
path. -/
def mkPayload (path query : List Char) : Payload :=
  let params := parseQueryPairs query
  { provider := String.mk ((splitOnChar '/' path).getD 2 ("unknown").data)
    code := alGet params ("code")
    state := alGet params ("state")
    error := alGet params ("error")
    error_description := alGet params ("error_description") }

/-- The event (if any) that the handler passes to `app.emit` for a given
request path: only paths starting with `/callback/` and containing a `?`
produce one. -/
def callbackEvent (path : List Char) : Option Payload :=
  if List.isPrefixOf ("/callback/").data path then
    match afterChar '?' path with
    | some query => some (mkPayload path query)
    | none => none
  else none

/-- The path token of the request: second whitespace-separated token of
the first line, `first_line.split_whitespace().nth(1)`. -/
def requestPath (req : String) : Option (List Char) :=
  (firstLine req).bind (fun fl => (whitespaceTokens fl)[1]?)

/-- What one accepted connection observes from the handler. -/
structure HandlerOutput where
  response : Option String
  event : Option Payload

/-- The per-connection closure spawned by `run_oauth_server`. The input
is `none` when `stream.read` returns `Err`, otherwise the string
obtained by `String::from_utf8_lossy` from the bytes read (an empty read
gives the empty string).  `response` is the data written back (if any)
and `event` the payload passed to `app.emit` (if any). -/
def handleConnection (readResult : Option String) : HandlerOutput :=
  match readResult with
  | none => ⟨none, none⟩
  | some req =>
    match requestPath req with
    | none => ⟨none, none⟩
    | some path => ⟨some oauthResponse, callbackEvent path⟩

/-- The registry `Arc<Mutex<HashMap<u16, JoinHandle<()>>>>`, with the
mutex's poisoned flag made explicit and the map as an association list
keyed by port; values are abstract join-handle identifiers. -/
structure Registry where
  poisoned : Bool
  entries : List (Nat × Nat)

/-- Display of a mutex poison error (`e.to_string()`). -/
def lockPoisonMsg : String :=
  "poisoned lock: another task failed inside"

/-- Everything observable about one `start_oauth_server` call. -/
structure StartOutcome where
  ret : Except String Unit
  registry : Registry
  abortedPrev : Option Nat
  taskLog : Option String

/-- Model of the `start_oauth_server` command.  `newHandle` is the
identifier of the `tokio::spawn`ed task; `bindResult` is the outcome of
the `TcpListener::bind` performed later inside that task (passed as a
parameter because the embedding is sequential).  The command removes and
aborts any previous handle for the port, spawns the task, inserts the
new handle and returns `Ok(())`; a bind failure is only logged from the
task (`eprintln!("OAuth server error: {}", e)`). -/
def start_oauth_server (st : Registry) (port newHandle : Nat)
    (bindResult : Except String Unit) : StartOutcome :=
  if st.poisoned then ⟨Except.error lockPoisonMsg, st, none, none⟩
  else
    ⟨Except.ok (), ⟨false, alErase st.entries port ++ [(port, newHandle)]⟩,
      alGet st.entries port,
      match bindResult with
      | Except.error e => some ("OAuth server error: " ++ e)
      | Except.ok _ => none⟩

/-- Model of the `stop_oauth_server` command: drain the registry,
aborting every handle; returns the emptied registry together with the
list of aborted handles. -/
def stop_oauth_server (st : Registry) :
    Except String (Registry × List Nat) :=
  if st.poisoned then Except.error lockPoisonMsg
  else Except.ok (⟨false, []⟩, st.entries.map Prod.snd)

/-- Keys and values legal in a hand-built `k1=v1&k2=v2&...` query
string: no separator characters inside. -/
def queryClean (s : String) : Prop :=
  '&' ∉ s.data ∧ '=' ∉ s.data

instance (s : String) : Decidable (queryClean s) :=
  inferInstanceAs (Decidable (And _ _))

/-- One `k=v` item as the spec's valid query strings build it. -/
def encodeItem (p : String × String) : List Char :=
  p.1.data ++ '=' :: p.2.data

/-- Join query items with `&`, without a trailing separator. -/
def joinAmp : List (List Char) → List Char
  | [] => []
  | [x] => x
  | x :: y :: ys => x ++ '&' :: joinAmp (y :: ys)

/-- A valid query string `k1=v1&k2=v2&...` built from pairs. -/
def encodeQuery (ps : List (String × String)) : List Char :=
  joinAmp (ps.map encodeItem)


/-! ### Helper lemmas -/

/-- Splitting a list that does not contain the separator gives back the
single segment. -/
theorem splitOnChar_of_not_mem (c : Char) :
    ∀ l : List Char, c ∉ l → splitOnChar c l = [l] := by
  intro l
  induction l with
  | nil => intro _; rfl
  | cons x xs ih =>
    intro h
    have hx : ¬ x = c := fun he => h (by simp [he])
    have hxs : c ∉ xs := fun hm => h (List.mem_cons_of_mem _ hm)
    simp [splitOnChar, hx, ih hxs]

/-- Splitting `x ++ c :: t` where `x` is separator-free peels off `x` as
the first segment. -/
theorem splitOnChar_append (c : Char) :
    ∀ (x t : List Char), c ∉ x →
      splitOnChar c (x ++ c :: t) = x :: splitOnChar c t := by
  intro x
  induction x with
  | nil => intro t _; simp [splitOnChar]
  | cons a x ih =>
    intro t h
    have ha : ¬ a = c := fun he => h (by simp [he])
    have hx : c ∉ x := fun hm => h (List.mem_cons_of_mem _ hm)
    simp [splitOnChar, ha, ih t hx]

/-- A key absent from the association list is not found. -/
theorem alGet_eq_none {α β : Type} [DecidableEq α] :
    ∀ (l : List (α × β)) (k : α), k ∉ l.map Prod.fst → alGet l k = none := by
  intro l
  induction l with
  | nil => intro k _; rfl
  | cons p l ih =>
    intro k h
    simp only [List.map_cons, List.mem_cons] at h
    push_neg at h
    have h1 := ih k h.2
    have h2 : ¬ p.1 = k := fun he => h.1 he.symm
    simp [alGet, h1, h2]

/-- Last-binding-wins lookup: the last occurrence of a key in the
association list determines the result. -/
theorem alGet_append_last {α β : Type} [DecidableEq α]
    (l1 l2 : List (α × β)) (k : α) (v : β) (h : k ∉ l2.map Prod.fst) :
    alGet (l1 ++ (k, v) :: l2) k = some v := by
  induction l1 with
  | nil =>
    have h2 := alGet_eq_none l2 k h
    simp [alGet, h2]
  | cons p l1 ih => simp [alGet, ih]

/-- Appending a fresh binding makes it the one found for its key. -/
theorem alGet_append_self {α β : Type} [DecidableEq α]
    (l : List (α × β)) (k : α) (v : β) :
    alGet (l ++ [(k, v)]) k = some v :=
  alGet_append_last l [] k v (by simp)

/-- Appending a binding for a different key does not change a lookup. -/
theorem alGet_append_ne {α β : Type} [DecidableEq α]
    (l : List (α × β)) (k p : α) (v : β) (h : ¬ p = k) :
    alGet (l ++ [(k, v)]) p = alGet l p := by
  induction l with
  | nil =>
    have hk : ¬ k = p := fun he => h he.symm
    simp [alGet, hk]
  | cons q l ih => simp [alGet, ih]

/-- Erasing one key does not change lookups of other keys. -/
theorem alGet_erase_ne {α β : Type} [DecidableEq α]
    (l : List (α × β)) (k p : α) (h : ¬ p = k) :
    alGet (alErase l k) p = alGet l p := by
  induction l with
  | nil => rfl
  | cons q l ih =>
    by_cases hq : q.1 = k
    · have hqp : ¬ q.1 = p := fun he => h (he ▸ hq)
      have hdrop : alErase (q :: l) k = alErase l k := by
        simp [alErase, List.filter_cons, hq]
      rw [hdrop, ih]
      simp only [alGet]
      cases halp : alGet l p with
      | none => simp [halp, hqp]
      | some w => simp [halp]
    · have hkeep : alErase (q :: l) k = q :: alErase l k := by
        simp [alErase, List.filter_cons, hq]
      rw [hkeep]
      simp only [alGet]
      rw [ih]

/-- The keys of the registry stay distinct across an erase-then-append
update. -/
theorem keys_nodup_update (l : List (Nat × Nat)) (port h : Nat)
    (hn : (l.map Prod.fst).Nodup) :
    (((alErase l port ++ [(port, h)]).map Prod.fst)).Nodup := by
  rw [List.map_append]
  refine List.Nodup.append ?_ ?_ ?_
  · exact ((List.filter_sublist l).map Prod.fst).nodup hn
  · simp
  · intro a ha hb
    simp only [List.map_cons, List.map_nil, List.mem_singleton] at hb
    subst hb
    rcases List.mem_map.mp ha with ⟨q, hq, hqa⟩
    rcases List.mem_filter.mp hq with ⟨_, hq2⟩
    simp only [decide_not, Bool.not_eq_eq_eq_not, Bool.not_true,
      decide_eq_false_iff_not] at hq2
    exact hq2 hqa

/-- Rebuilding a string from its character data is the identity. -/
theorem strMkData (s : String) : String.mk s.data = s := by
  cases s
  rfl

/-- Parsing a well-formed `key=value` item: the key is kept verbatim and
the value percent-decoded. -/
theorem parsePair_encode (k v : List Char) (hk : '=' ∉ k) (hv : '=' ∉ v) :
    parsePair (k ++ '=' :: v) =
      some (String.mk k, decodeValue (String.mk v)) := by
  unfold parsePair
  rw [splitOnChar_append _ k v hk, splitOnChar_of_not_mem _ v hv]

/-- A query item built from clean parts contains no `&`. -/
theorem encodeItem_no_amp (p : String × String) (h1 : queryClean p.1)
    (h2 : queryClean p.2) : '&' ∉ encodeItem p := by
  unfold encodeItem
  intro hm
  rcases List.mem_append.mp hm with hma | hmb
  · exact h1.1 hma
  · rcases List.mem_cons.mp hmb with he | hmc
    · cases he
    · exact h2.1 hmc

/-- Parsing a hand-built valid query string recovers every pair, with
values percent-decoded. -/
theorem parseQueryPairs_encode :
    ∀ ps : List (String × String),
      (∀ p ∈ ps, queryClean p.1 ∧ queryClean p.2) →
      parseQueryPairs (encodeQuery ps) =
        ps.map (fun p => (p.1, decodeValue p.2)) := by
  intro ps
  induction ps with
  | nil => intro _; rfl
  | cons p ps ih =>
    intro h
    have hp := h p (List.mem_cons_self p ps)
    have hps : ∀ q ∈ ps, queryClean q.1 ∧ queryClean q.2 :=
      fun q hq => h q (List.mem_cons_of_mem _ hq)
    have hamp : '&' ∉ encodeItem p := encodeItem_no_amp p hp.1 hp.2
    have hpair : parsePair (encodeItem p) =
        some (p.1, decodeValue p.2) := by
      have := parsePair_encode p.1.data p.2.data hp.1.2 hp.2.2
      simpa [encodeItem, strMkData] using this
    cases ps with
    | nil =>
      show parseQueryPairs (joinAmp [encodeItem p]) = _
      unfold joinAmp parseQueryPairs
      rw [splitOnChar_of_not_mem _ _ hamp]
      simp [List.filterMap, hpair]
    | cons q qs =>
      have hjoin : encodeQuery (p :: q :: qs) =
          encodeItem p ++ '&' :: encodeQuery (q :: qs) := rfl
      rw [hjoin]
      unfold parseQueryPairs
      rw [splitOnChar_append _ _ _ hamp]
      rw [List.filterMap_cons]
      rw [hpair]
      have := ih hps
      unfold parseQueryPairs at this
      rw [this]
      rfl

/-- Looking up a key of a duplicate-free association list after a
key-preserving value map finds the mapped value. -/
theorem alGet_map_nodup {α β γ : Type} [DecidableEq α] (g : β → γ) :
    ∀ (ps : List (α × β)), (ps.map Prod.fst).Nodup →
      ∀ (k : α) (v : β), (k, v) ∈ ps →
        alGet (ps.map (fun p => (p.1, g p.2))) k = some (g v) := by
  intro ps
  induction ps with
  | nil => intro _ k v hm; cases hm
  | cons q ps ih =>
    intro hn k v hm
    rcases List.nodup_cons.mp hn with ⟨hq, hn2⟩
    rcases List.mem_cons.mp hm with he | hmem
    · have hkeys : k ∉ (ps.map (fun p => (p.1, g p.2))).map Prod.fst := by
        rw [List.map_map]
        have : (Prod.fst ∘ fun p : α × β => (p.1, g p.2)) = Prod.fst := rfl
        rw [this]
        rw [← he] at hq
        exact hq
      have hnone := alGet_eq_none _ k hkeys
      rw [← he]
      simp [alGet, hnone]
    · have := ih hn2 k v hmem
      simp [alGet, this]

/-- The second token is absent when fewer than two tokens exist. -/
theorem getElem1_none {α : Type} (l : List α) (h : l.length < 2) :
    l[1]? = none := by
  cases l with
  | nil => rfl
  | cons a t =>
    cases t with
    | nil => rfl
    | cons b t2 => simp at h; omega

/-- Once a path token was extracted, the handler writes the fixed
response and emits whatever `callbackEvent` yields for the path. -/
theorem handleConnection_eq (req : String) (path : List Char)
    (hrp : requestPath req = some path) :
    handleConnection (some req) = ⟨some oauthResponse, callbackEvent path⟩ := by
  have h0 : handleConnection (some req) =
      (match requestPath req with
        | none => (⟨none, none⟩ : HandlerOutput)
        | some path => ⟨some oauthResponse, callbackEvent path⟩) := rfl
  rw [h0, hrp]

/-- Without a path token, the handler writes nothing and emits nothing. -/
theorem handleConnection_none (req : String)
    (hrp : requestPath req = none) :
    handleConnection (some req) = ⟨none, none⟩ := by
  have h0 : handleConnection (some req) =
      (match requestPath req with
        | none => (⟨none, none⟩ : HandlerOutput)
        | some path => ⟨some oauthResponse, callbackEvent path⟩) := rfl
  rw [h0, hrp]

/-- Paths outside `/callback/` produce no event. -/
theorem callbackEvent_not_callback (path : List Char)
    (h : List.isPrefixOf (("/callback/").data) path = false) :
    callbackEvent path = none := by
  unfold callbackEvent
  rw [h]
  rfl

/-- Callback paths without a `?` produce no event. -/
theorem callbackEvent_no_query (path : List Char)
    (hpre : List.isPrefixOf (("/callback/").data) path = true)
    (hq : afterChar '?' path = none) :
    callbackEvent path = none := by
  unfold callbackEvent
  rw [hpre, hq]
  rfl

/-- Callback paths with a `?` always produce the payload built from the
path and its query string. -/
theorem callbackEvent_with_query (path q : List Char)
    (hpre : List.isPrefixOf (("/callback/").data) path = true)
    (hq : afterChar '?' path = some q) :
    callbackEvent path = some (mkPayload path q) := by
  unfold callbackEvent
  rw [hpre, hq]
  rfl

/-! ### Claims -/

/-- Claim C1, counterexample: with an empty healthy registry, port 8080
and a bind failure, `start_oauth_server` still returns `Ok(())` and a
handle for port 8080 is stored — contradicting the claim that the error
is returned and no handle is stored. -/
theorem C1_counterexample :
    (start_oauth_server ⟨false, []⟩ 8080 1
        (Except.error ("Address already in use (os error 98)"))).ret =
      Except.ok () ∧
    alGet (start_oauth_server ⟨false, []⟩ 8080 1
        (Except.error ("Address already in use (os error 98)"))).registry.entries
        8080 = some 1 := by
  exact ⟨rfl, rfl⟩

/-- Claim C1, amended: on bind failure `start_oauth_server` nevertheless
returns `Ok(())` to its caller and stores the spawned task's handle for
the port; the bind error is only logged from the spawned task as
`OAuth server error: <e>`. -/
theorem C1_amended_thm (st : Registry) (port h : Nat) (e : String)
    (hp : st.poisoned = false) :
    (start_oauth_server st port h (Except.error e)).ret = Except.ok () ∧
    alGet (start_oauth_server st port h (Except.error e)).registry.entries
      port = some h ∧
    (start_oauth_server st port h (Except.error e)).taskLog =
      some ("OAuth server error: " ++ e) := by
  have hstart : start_oauth_server st port h (Except.error e) =
      ⟨Except.ok (), ⟨false, alErase st.entries port ++ [(port, h)]⟩,
        alGet st.entries port, some ("OAuth server error: " ++ e)⟩ := by
    unfold start_oauth_server
    rw [hp]
    rfl
  rw [hstart]
  exact ⟨rfl, alGet_append_self _ port h, rfl⟩

/-- Claim C1, witness for the amended theorem. -/
theorem C1_amended_witness :
    (start_oauth_server ⟨false, []⟩ 8080 1
        (Except.error ("Address already in use (os error 98)"))).taskLog =
      some ("OAuth server error: " ++ "Address already in use (os error 98)") := by
  exact (C1_amended_thm ⟨false, []⟩ 8080 1
    ("Address already in use (os error 98)") rfl).2.2

/-- Claim C2: evaluating the handler at the spec's own scenario request
shows that the published provider is the whole third `/`-segment of the
path, query string included — `"google?code=abc123&state=xyz"`, not
`"google"` as the claim states. -/
theorem C2_code_eval :
    handleConnection
        (some ("GET /callback/google?code=abc123&state=xyz HTTP/1.1\r\nHost: 127.0.0.1\r\n\r\n")) =
      ⟨some oauthResponse,
        some ⟨"google?code=abc123&state=xyz", some ("abc123"), some ("xyz"),
          none, none⟩⟩ ∧
    ¬ (("google?code=abc123&state=xyz" : String) = "google") := by
  exact ⟨rfl, by decide⟩

/-- Claim C3, counterexample: for the item `k=a=b` the stored value is
`"a"` (the segment between the first and second `=`), not `"a=b"` as
the claim states. -/
theorem C3_counterexample :
    alGet (parseQueryPairs (("k=a=b").data)) ("k") = some ("a") ∧
    ¬ (alGet (parseQueryPairs (("k=a=b").data)) ("k") = some ("a=b")) := by
  exact ⟨rfl, by decide⟩

/-- Claim C3, amended: each item is split on `=` and the first two
segments are taken as key and value (text after a second `=` is
dropped, so `k=a=b` yields value `"a"`); items without `=` are
excluded; and looking up any key of a valid query string returns its
percent-decoded value. -/
theorem C3_amended_thm :
    parsePair (("k=a=b").data) = some ("k", "a") ∧
    (∀ t : List Char, '=' ∉ t → parsePair t = none) ∧
    (∀ ps : List (String × String),
      (∀ p ∈ ps, queryClean p.1 ∧ queryClean p.2) →
      (ps.map Prod.fst).Nodup →
      ∀ p ∈ ps,
        alGet (parseQueryPairs (encodeQuery ps)) p.1 =
          some (decodeValue p.2)) := by
  refine ⟨rfl, ?_, ?_⟩
  · intro t ht
    unfold parsePair
    rw [splitOnChar_of_not_mem _ t ht]
  · intro ps hclean hnodup p hp
    rw [parseQueryPairs_encode ps hclean]
    exact alGet_map_nodup decodeValue ps hnodup p.1 p.2 hp

/-- Claim C3, witness for the amended theorem. -/
theorem C3_amended_witness :
    alGet (parseQueryPairs (encodeQuery [("k1", "v1"), ("k2", "v2")]))
      ("k2") = some ("v2") := by
  exact C3_amended_thm.2.2 [("k1", "v1"), ("k2", "v2")] (by decide)
    (by decide) ("k2", "v2") (by decide)

/-- Claim C4: the mapping built by `collect` keeps the value of the last
occurrence of a duplicated key; in particular `code=a&code=b` maps
`code` to `"b"`. -/
theorem C4_thm :
    (∀ (q : List Char) (l1 l2 : List (String × String)) (k v : String),
      parseQueryPairs q = l1 ++ (k, v) :: l2 →
      k ∉ l2.map Prod.fst →
      alGet (parseQueryPairs q) k = some v) ∧
    alGet (parseQueryPairs (("code=a&code=b").data)) ("code") =
      some ("b") := by
  refine ⟨?_, rfl⟩
  intro q l1 l2 k v heq hk
  rw [heq]
  exact alGet_append_last l1 l2 k v hk

/-- Claim C4, witness. -/
theorem C4_witness :
    alGet (parseQueryPairs (("code=a&code=b").data)) ("code") =
      some ("b") := by
  exact C4_thm.1 (("code=a&code=b").data) [("code", "a")] [] ("code") ("b")
    rfl (by decide)

/-- Claim C5, counterexample: the value `%zz` contains malformed
percent-encoding, yet it is stored verbatim as `"%zz"`, not as the
empty string the claim requires. -/
theorem C5_counterexample :
    alGet (parseQueryPairs (("a=%zz").data)) ("a") = some ("%zz") ∧
    ¬ (alGet (parseQueryPairs (("a=%zz").data)) ("a") = some ("")) := by
  exact ⟨rfl, by decide⟩

/-- Claim C5, amended: only a decode failure (percent-decoded bytes that
are not valid UTF-8, e.g. `%FF`) yields the empty string; invalid hex
sequences such as `%zz` pass through verbatim; and in either case the
handler still publishes the payload and writes the 200 response. -/
theorem C5_amended_thm :
    (∀ v : String, urlencoding.decode v = none → decodeValue v = "") ∧
    urlencoding.decode ("%FF") = none ∧
    decodeValue ("%FF") = "" ∧
    decodeValue ("%zz") = "%zz" ∧
    (∀ (req : String) (path q : List Char),
      requestPath req = some path →
      List.isPrefixOf (("/callback/").data) path = true →
      afterChar '?' path = some q →
      handleConnection (some req) =
        ⟨some oauthResponse, some (mkPayload path q)⟩) := by
  refine ⟨?_, rfl, rfl, rfl, ?_⟩
  · intro v hv
    unfold decodeValue
    rw [hv]
    rfl
  · intro req path q hrp hpre hq
    rw [handleConnection_eq req path hrp,
      callbackEvent_with_query path q hpre hq]

/-- Claim C5, witness for the amended theorem. -/
theorem C5_amended_witness :
    handleConnection (some ("GET /callback/g?a=%FF&b=%zz HTTP/1.1")) =
      ⟨some oauthResponse,
        some (mkPayload (("/callback/g?a=%FF&b=%zz").data)
          (("a=%FF&b=%zz").data))⟩ := by
  exact C5_amended_thm.2.2.2.2 ("GET /callback/g?a=%FF&b=%zz HTTP/1.1")
    (("/callback/g?a=%FF&b=%zz").data) (("a=%FF&b=%zz").data) rfl
    (by decide) rfl

/-- Claim C6: any request whose line parses to a path outside
`/callback/` publishes nothing but still receives the fixed 200
response — whose text is the status line, a blank line, and an HTML
body carrying a `window.close()` script. -/
theorem C6_thm :
    (∀ (req : String) (path : List Char),
      requestPath req = some path →
      List.isPrefixOf (("/callback/").data) path = false →
      handleConnection (some req) = ⟨some oauthResponse, none⟩) ∧
    oauthResponse =
      "HTTP/1.1 200 OK" ++ "\r\n" ++ "\r\n" ++
        "<html><body><h1>认证完成</h1><p>您可以关闭此窗口</p><script>window.close();</script></body></html>" := by
  constructor
  · intro req path hrp hpre
    rw [handleConnection_eq req path hrp, callbackEvent_not_callback path hpre]
  · rfl

/-- Claim C6, witness: `GET /favicon.ico HTTP/1.1`. -/
theorem C6_witness :
    handleConnection (some ("GET /favicon.ico HTTP/1.1")) =
      ⟨some oauthResponse, none⟩ := by
  exact C6_thm.1 ("GET /favicon.ico HTTP/1.1") (("/favicon.ico").data) rfl
    (by decide)

/-- Claim C7: a read error, an empty read, or a first line with fewer
than two whitespace-separated tokens all end the handler with no
response written and no event published. -/
theorem C7_thm :
    handleConnection none = ⟨none, none⟩ ∧
    handleConnection (some ("")) = ⟨none, none⟩ ∧
    (∀ (req : String) (fl : List Char),
      firstLine req = some fl →
      (whitespaceTokens fl).length < 2 →
      handleConnection (some req) = ⟨none, none⟩) := by
  refine ⟨rfl, rfl, ?_⟩
  intro req fl hfl hlen
  have hrp : requestPath req = none := by
    unfold requestPath
    rw [hfl]
    exact getElem1_none _ hlen
  exact handleConnection_none req hrp

/-- Claim C7, witness: the one-token request `GET`. -/
theorem C7_witness :
    handleConnection (some ("GET")) = ⟨none, none⟩ := by
  exact C7_thm.2.2 ("GET") (("GET").data) rfl (by decide)

/-- Claim C8: `stop_oauth_server` drains the registry completely,
aborting exactly the tracked handles, and succeeds; on an empty registry
it succeeds, aborts nothing and leaves the registry unchanged. -/
theorem C8_thm :
    (∀ st : Registry, st.poisoned = false →
      stop_oauth_server st =
        Except.ok (⟨false, []⟩, st.entries.map Prod.snd)) ∧
    stop_oauth_server ⟨false, []⟩ = Except.ok (⟨false, []⟩, []) := by
  constructor
  · intro st hp
    simp [stop_oauth_server, hp]
  · rfl

/-- Claim C8, witness: a registry with two tracked handles. -/
theorem C8_witness :
    stop_oauth_server ⟨false, [(8080, 7), (3000, 9)]⟩ =
      Except.ok (⟨false, []⟩, [7, 9]) := by
  exact C8_thm.1 ⟨false, [(8080, 7), (3000, 9)]⟩ rfl

/-- Claim C9: `start_oauth_server` preserves distinctness of the
registry's ports; when the lock is healthy the new handle is the only
one stored for the port, the previous handle for that port (if any) is
the one aborted, and other ports are untouched. -/
theorem C9_thm (st : Registry) (port h : Nat) (bres : Except String Unit)
    (hn : (st.entries.map Prod.fst).Nodup) :
    ((start_oauth_server st port h bres).registry.entries.map
      Prod.fst).Nodup ∧
    (st.poisoned = false →
      alGet (start_oauth_server st port h bres).registry.entries port =
        some h ∧
      (start_oauth_server st port h bres).abortedPrev =
        alGet st.entries port ∧
      ∀ p : Nat, ¬ p = port →
        alGet (start_oauth_server st port h bres).registry.entries p =
          alGet st.entries p) := by
  cases hp : st.poisoned with
  | true =>
    have hstart : start_oauth_server st port h bres =
        ⟨Except.error lockPoisonMsg, st, none, none⟩ := by
      unfold start_oauth_server
      rw [hp]
      rfl
    constructor
    · rw [hstart]
      exact hn
    · intro hfalse
      exact absurd hfalse (by decide)
  | false =>
    have hstart : start_oauth_server st port h bres =
        ⟨Except.ok (), ⟨false, alErase st.entries port ++ [(port, h)]⟩,
          alGet st.entries port,
          match bres with
          | Except.error e => some ("OAuth server error: " ++ e)
          | Except.ok _ => none⟩ := by
      unfold start_oauth_server
      rw [hp]
      rfl
    constructor
    · rw [hstart]
      exact keys_nodup_update st.entries port h hn
    · intro _
      refine ⟨?_, ?_, ?_⟩
      · rw [hstart]
        exact alGet_append_self _ port h
      · rw [hstart]
      · intro p hpne
        rw [hstart]
        show alGet (alErase st.entries port ++ [(port, h)]) p =
          alGet st.entries p
        rw [alGet_append_ne _ port p h hpne, alGet_erase_ne _ port p hpne]

/-- Claim C9, witness: restarting port 8080 replaces handle 1 with
handle 2 and aborts handle 1. -/
theorem C9_witness :
    alGet (start_oauth_server ⟨false, [(8080, 1)]⟩ 8080 2
        (Except.ok ())).registry.entries 8080 = some 2 ∧
    (start_oauth_server ⟨false, [(8080, 1)]⟩ 8080 2
        (Except.ok ())).abortedPrev = some 1 := by
  have h := (C9_thm ⟨false, [(8080, 1)]⟩ 8080 2 (Except.ok ())
    (by decide)).2 rfl
  exact ⟨h.1, h.2.1.trans rfl⟩

/-- Claim C10: a parsed request whose path starts with `/callback/` but
contains no `?` publishes no event, though the fixed 200 response is
still written. -/
theorem C10_thm :
    ∀ (req : String) (path : List Char),
      requestPath req = some path →
      List.isPrefixOf (("/callback/").data) path = true →
      afterChar '?' path = none →
      handleConnection (some req) = ⟨some oauthResponse, none⟩ := by
  intro req path hrp hpre hq
  rw [handleConnection_eq req path hrp, callbackEvent_no_query path hpre hq]

/-- Claim C10, witness: `GET /callback/google HTTP/1.1`. -/
theorem C10_witness :
    handleConnection (some ("GET /callback/google HTTP/1.1")) =
      ⟨some oauthResponse, none⟩ := by
  exact C10_thm ("GET /callback/google HTTP/1.1")
    (("/callback/google").data) rfl (by decide) rfl
